import Mathlib

/-!
Shallow embedding of the `dspsr_utils` benchmarking module and proofs about
its specification claims.

The source is a Python 2 module with one free function, `test_dspsr`, which
builds a `time dspsr ...` command line from keyword arguments, runs it, and
parses per-stage timings out of the captured output, and one class,
`dspsrTrials`, which sweeps one argument over a value sequence, classifies
runs as good or bad, accumulates timing sequences, and pickles/unpickles the
aggregate.

Pure data is embedded directly; the process boundary (`Popen`/`communicate`)
is embedded by passing the child process's standard-output and
standard-error texts as explicit arguments, in the documented order of
`communicate()`'s return value, namely `(stdout, stderr)`.  Fallible Python
operations (dictionary lookup, list indexing, `float()` conversion, `"%d"`
formatting, division) are embedded in `Except String`, with the Python
exception class name as the error payload.  Python floats are modelled as
exact rationals.
-/

/-- Python values as they occur in this module's keyword-argument
dictionaries: integers, floats (modelled as rationals), strings, booleans. -/
inductive Val where
  | i (n : Int)
  | q (x : ℚ)
  | s (s : String)
  | b (b : Bool)
deriving DecidableEq, Repr

/-- Does `pat` occur as a contiguous run starting at some suffix of `l`? -/
def substrAux (pat : List Char) : List Char → Bool
  | [] => pat.isEmpty
  | c :: rest => pat.isPrefixOf (c :: rest) || substrAux pat rest

/-- Substring test, modelling Python's `pat in s`. -/
def substr (pat s : String) : Bool :=
  substrAux pat.toList s.toList

/-- Python's `str.split()` with no argument: split on whitespace runs,
dropping empty pieces. -/
def pySplit (s : String) : List String :=
  (s.split Char.isWhitespace).filter (fun t => t ≠ "")

/-- Numeric value of a digit string (caller checks all characters are
digits). -/
def digitsNat (s : String) : Nat :=
  s.foldl (fun a c => a * 10 + (c.toNat - 48)) 0

/-- Parse an unsigned decimal mantissa `digits[.digits]`, requiring at least
one digit overall, as Python's `float()` does. -/
def parseFrac (s : String) : Option ℚ :=
  match s.splitOn "." with
  | [a] =>
      if 0 < a.length ∧ a.all Char.isDigit then some ((digitsNat a : ℚ)) else none
  | [a, b] =>
      if 0 < a.length + b.length ∧ a.all Char.isDigit ∧ b.all Char.isDigit then
        some ((digitsNat a : ℚ) + (digitsNat b : ℚ) / ((10 : ℚ) ^ b.length))
      else none
  | _ => none

/-- Parse a signed decimal integer (exponent part of a float literal). -/
def parseExp (s : String) : Option Int :=
  if s.startsWith "-" then
    let t := s.drop 1
    if 0 < t.length ∧ t.all Char.isDigit then some (-(digitsNat t : Int)) else none
  else if s.startsWith "+" then
    let t := s.drop 1
    if 0 < t.length ∧ t.all Char.isDigit then some ((digitsNat t : Int)) else none
  else
    if 0 < s.length ∧ s.all Char.isDigit then some ((digitsNat s : Int)) else none

/-- Parse an unsigned float literal `mantissa[e exponent]`. -/
def parseUnsignedQ (s : String) : Option ℚ :=
  match s.splitOn "e" with
  | [m] => parseFrac m
  | [m, e] => do
      let mv ← parseFrac m
      let ev ← parseExp e
      some (mv * (10 : ℚ) ^ ev)
  | _ => none

/-- Python's `float(string)` on finite decimal literals (optional sign,
decimal mantissa, optional exponent), as an exact rational; `none` models a
raised `ValueError`. -/
def parseQ (s0 : String) : Option ℚ :=
  let s := s0.map Char.toLower
  if s.startsWith "-" then (parseUnsignedQ (s.drop 1)).map Neg.neg
  else if s.startsWith "+" then parseUnsignedQ (s.drop 1)
  else parseUnsignedQ s

/-- `float(string)` in the `Except` embedding. -/
def pyFloatStr (s : String) : Except String ℚ :=
  match parseQ s with
  | some q => .ok q
  | none => .error "ValueError"

/-- Python list indexing `l[i]`; out of range raises `IndexError`. -/
def lget (l : List String) (i : Nat) : Except String String :=
  match l.get? i with
  | some x => .ok x
  | none => .error "IndexError"

/-- Python dictionary assignment `d[k] = v` on an insertion-ordered
association list: replace in place if the key exists, else append. -/
def dictInsert {α : Type} (d : List (String × α)) (k : String) (v : α) :
    List (String × α) :=
  if (d.lookup k).isSome then d.map (fun p => if p.1 = k then (k, v) else p)
  else d ++ [(k, v)]

/-- `if k not in d: d[k] = v`, the defaulting idiom of `test_dspsr`. -/
def setDefault (d : List (String × Val)) (k : String) (v : Val) :
    List (String × Val) :=
  if (d.lookup k).isSome then d else d ++ [(k, v)]

/-- Python dictionary read `d[k]`; a missing key raises `KeyError`. -/
def dget (d : List (String × Val)) (k : String) : Except String Val :=
  match d.lookup k with
  | some v => .ok v
  | none => .error "KeyError"

/-- Rendering of a rational for Python's `str()` on the float values this
module passes around (all terminating decimals in practice; integral values
render as `n.0` the way Python floats do). -/
def strQ (x : ℚ) : String :=
  if x.den = 1 then toString x.num ++ ".0"
  else toString x.num ++ "/" ++ toString x.den

/-- Python's `str(v)` / `"%s" % v`. -/
def pyStrV : Val → String
  | .i n => toString n
  | .q x => strQ x
  | .s s => s
  | .b b => if b then "True" else "False"

/-- Truncation toward zero, Python's `%d` conversion of a float. -/
def truncQ (x : ℚ) : Int :=
  if 0 ≤ x then x.floor else x.ceil

/-- Python's `"%d" % v`: integers and floats format, strings raise
`TypeError`. -/
def pyFmtD : Val → Except String String
  | .i n => .ok (toString n)
  | .q x => .ok (toString (truncQ x))
  | .b b => .ok (if b then "1" else "0")
  | .s _ => .error "TypeError"

/-- Python's `float(v)` on a dictionary value. -/
def pyFloatV : Val → Except String ℚ
  | .i n => .ok (n : ℚ)
  | .q x => .ok x
  | .b b => .ok (if b then 1 else 0)
  | .s s => pyFloatStr s

/-- Python's `v / b` with `b` a float: numeric `v` divides (raising
`ZeroDivisionError` on `b = 0`), a string raises `TypeError`. -/
def pyDivV (v : Val) (b : ℚ) : Except String ℚ :=
  match v with
  | .s _ => .error "TypeError"
  | v => if b = 0 then .error "ZeroDivisionError"
         else do
           let x ← pyFloatV v
           .ok (x / b)

/-- Python's `"%f" % x`: fixed-point rendering with six fractional digits. -/
def fmtF (x : ℚ) : String :=
  let y : ℚ := |x|
  let n : Nat := (y * 1000000 + 1 / 2).floor.toNat
  let ip := n / 1000000
  let fp := n % 1000000
  let fps := toString fp
  let pad := String.mk (List.replicate (6 - fps.length) '0')
  (if x < 0 then "-" else "") ++ toString ip ++ "." ++ pad ++ fps

/-- One progress-noise cleanup step of `test_dspsr`: a line containing a
carriage return is truncated to its last carriage-return-delimited
segment. -/
def strip_progress (l : String) : String :=
  if substr "\r" l then (l.splitOn "\r").getLastD "" else l

/-- One iteration of the timing-parse loop of `test_dspsr` (source lines
109–125).  State: (`time_line` flag, `times` dictionary, `unix_time`). -/
def parse_step (st : Bool × List (String × ℚ) × ℚ) (line : String) :
    Except String (Bool × List (String × ℚ) × ℚ) := do
  let (tl0, times0, unix0) := st
  let split_line := pySplit line
  -- `if "unloading" in line: time_line = False`
  let tl1 := if substr "unloading" line then false else tl0
  let (times1, unix1) ←
    if split_line.length ≠ 0 then
      if tl1 then do
        let w ← lget split_line 1
        let v ← pyFloatStr w
        pure (dictInsert times0 (split_line.headD "") v, unix0)
      else if substr "dspsr: prepared in" line then do
        let w ← lget split_line 3
        let v ← pyFloatStr w
        pure (dictInsert times0 "Preparation" v, unix0)
      else if substr "dsp::Archiver::unload in" line then do
        let w ← lget split_line 2
        let v ← pyFloatStr w
        pure (dictInsert times0 "Unloading" v, unix0)
      else if substr "TOTAL WALL TIME ELAPSED" line then do
        let w ← lget split_line 4
        let v ← pyFloatStr w
        pure (times0, v)
      else pure (times0, unix0)
    else pure (times0, unix0)
  -- `if "Time Spent" in line: time_line = True`
  let tl2 := if substr "Time Spent" line then true else tl1
  pure (tl2, times1, unix1)

/-- The timing-parse loop over the remaining lines, threading the state. -/
def parse_lines (st : Bool × List (String × ℚ) × ℚ) :
    List String → Except String (List (String × ℚ) × ℚ)
  | [] => .ok (st.2.1, st.2.2)
  | l :: rest => do
      let st' ← parse_step st l
      parse_lines st' rest

/-- The full timing parse of `test_dspsr`: starts with the flag down, an
empty stage dictionary and the `-1.0` wall-time sentinel. -/
def parse_times (lines : List String) : Except String (List (String × ℚ) × ℚ) :=
  parse_lines (false, [], -1) lines

/-- The keyword-argument defaulting block of `test_dspsr` (source lines
38–46). -/
def apply_defaults (kw : List (String × Val)) : List (String × Val) :=
  let kw := setDefault kw "F" (.i 1024)
  let kw := setDefault kw "T" (.i 10)
  let kw := setDefault kw "cuda" (.s "0")
  let kw := setDefault kw "minram" (.i 1)
  let kw := setDefault kw "source" (.s "1937+21")
  let kw := setDefault kw "freq" (.q 600)
  let kw := setDefault kw "nchan" (.i 16)
  let kw := setDefault kw "bw" (.q 400)
  kw

/-- `if "D" in kwargs: arg_dict["-D"] = str(kwargs["D"])` (source lines
54–55). -/
def arg_dict_D (d : List (String × Val)) (a : List (String × Option String)) :
    List (String × Option String) :=
  match d.lookup "D" with
  | some v => dictInsert a "-D" (some (pyStrV v))
  | none => a

/-- The `-x` flag resolution (source lines 56–59): `fftlen` takes priority,
else `minX` renders as `minX%d`, else no `-x` entry. -/
def arg_dict_x (d : List (String × Val)) (a : List (String × Option String)) :
    Except String (List (String × Option String)) :=
  match d.lookup "fftlen" with
  | some v => .ok (dictInsert a "-x" (some (pyStrV v)))
  | none =>
      match d.lookup "minX" with
      | some w => do
          let ws ← pyFmtD w
          .ok (dictInsert a "-x" (some ("minX" ++ ws)))
      | none => .ok a

/-- `if "t" in kwargs: arg_dict["-t"] = str(kwargs["t"])` (source lines
60–61). -/
def arg_dict_t (d : List (String × Val)) (a : List (String × Option String)) :
    List (String × Option String) :=
  match d.lookup "t" with
  | some v => dictInsert a "-t" (some (pyStrV v))
  | none => a

/-- The `arg_dict` construction of `test_dspsr` (source lines 48–61): an
insertion-ordered dictionary from flag to optional flag value (`-r` carries
no value). -/
def build_arg_dict (d : List (String × Val)) :
    Except String (List (String × Option String)) := do
  let fv ← dget d "F"
  let fs ← pyFmtD fv
  let a := dictInsert ([] : List (String × Option String)) "-F" (some (fs ++ ":D"))
  let a := dictInsert a "-r" none
  let cu ← dget d "cuda"
  let a := dictInsert a "-cuda" (some (pyStrV cu))
  let tv ← dget d "T"
  let a := dictInsert a "-T" (some (pyStrV tv))
  let mr ← dget d "minram"
  let a := dictInsert a "-minram" (some (pyStrV mr))
  let a := arg_dict_D d a
  let a ← arg_dict_x d a
  pure (arg_dict_t d a)

/-- The synthetic header block of `test_dspsr` (source lines 69–85). -/
def build_header (d : List (String × Val)) : Except String (List String) := do
  let src ← dget d "source"
  let fr ← dget d "freq"
  let nc ← dget d "nchan"
  let bwv ← dget d "bw"
  let ncs ← pyFmtD nc
  let bq ← pyFloatV bwv
  let ts ← pyDivV nc bq
  pure ["-header", "DUMMY", "HDR_VERSION=1.0", "INSTRUMENT=Dummy", "TELESCOPE=1",
    "SOURCE=" ++ pyStrV src, "MODE=PSR", "FREQ=" ++ pyStrV fr, "NCHAN=" ++ ncs,
    "NPOL=2", "NBIT=4", "NDIM=2", "TSAMP=" ++ fmtF ts, "BW=" ++ pyStrV bwv,
    "UTC_START=2014-06-04-12:00:00", "OFFSET=0", "MAX_DATA_MB=4096"]

/-- Flatten the flags dictionary into command tokens (source lines 64–67):
append the flag, then its value when it has one. -/
def flatten_args (a : List (String × Option String)) : List String :=
  a.flatMap (fun p => match p.2 with
    | some v => [p.1, v]
    | none => [p.1])

/-- The full command-token list built by `test_dspsr` (source lines 63–85):
timing wrapper, binary, flags, synthetic header. -/
def build_cmd (kw : List (String × Val)) : Except String (List String) := do
  let d := apply_defaults kw
  let a ← build_arg_dict d
  let h ← build_header d
  pure (["time", "-f", "\"TOTAL WALL TIME ELAPSED: %e seconds\"", "dspsr"]
    ++ flatten_args a ++ h)

/-- The rendered command string (source lines 87–90): the token list from
the first `dspsr` token on, each token followed by one space. -/
def dspsr_call_of (cmd : List String) : String :=
  String.join ((cmd.dropWhile (fun s => s ≠ "dspsr")).map (fun s => s ++ " "))

/-- The 5-tuple returned by `test_dspsr`: stage-to-seconds dictionary,
total wall time, processed output lines, error text, rendered command. -/
structure RunResult where
  times : List (String × ℚ)
  unix_time : ℚ
  out : List String
  err : String
  call : String
deriving DecidableEq, Repr

/-- The whole of `test_dspsr` (source lines 6–127).  The child process's
streams enter as `proc_stdout` and `proc_stderr`, the two components of
`communicate()`'s return value in its documented `(stdout, stderr)` order;
the source destructures that pair as `ex_err, ex_out`, so `ex_err` receives
the standard-output text and `ex_out` the standard-error text, and all
further parsing runs over `ex_out`. -/
def test_dspsr (kw : List (String × Val)) (proc_stdout proc_stderr : String) :
    Except String RunResult := do
  let cmd ← build_cmd kw
  let dspsr_call := dspsr_call_of cmd
  -- `ex_err, ex_out = ex.communicate()` with `communicate()` returning
  -- `(stdout, stderr)`
  let ex_err := proc_stdout
  let ex_out := proc_stderr
  let lines := (ex_out.splitOn "\n").map strip_progress
  let (times, unix_time) ← parse_times lines
  pure { times := times, unix_time := unix_time, out := lines,
         err := ex_err, call := dspsr_call }

/-- The `dspsrTrials` aggregate: one benchmarking sweep's state. -/
structure dspsrTrials where
  varied_arg : String
  varied_arg_values : List Val
  fixed_args : List (String × Val)
  executed : Bool
  all_times : List (String × List ℚ)
  all_utime : List ℚ
  all_stdout : List (List String)
  all_stderr : List String
  all_dspsr_calls : List String
  good_runs : List Bool
  comment : String
deriving DecidableEq, Repr

/-- `dspsrTrials.__init__` (source lines 131–162): empty accumulators,
`executed` false, `good_runs` all false with the values' length. -/
def dspsrTrials.init (varied_arg : String) (varied_arg_values : List Val)
    (fixed_args : List (String × Val)) : dspsrTrials :=
  { varied_arg := varied_arg
    varied_arg_values := varied_arg_values
    fixed_args := fixed_args
    executed := false
    all_times := []
    all_utime := []
    all_stdout := []
    all_stderr := []
    all_dspsr_calls := []
    good_runs := varied_arg_values.map (fun _ => false)
    comment := "" }

/-- `self.all_times[part].append(t[part])` (source line 201): appending to a
stage's list; a stage name that is not a key raises `KeyError`. -/
def append_at (a : List (String × List ℚ)) (k : String) (v : ℚ) :
    Except String (List (String × List ℚ)) :=
  if (a.lookup k).isSome then
    .ok (a.map (fun p => if p.1 = k then (p.1, p.2 ++ [v]) else p))
  else .error "KeyError"

/-- `for part in t.keys(): self.all_times[part].append(t[part])` (source
lines 200–201). -/
def fold_append (a : List (String × List ℚ)) :
    List (String × ℚ) → Except String (List (String × List ℚ))
  | [] => .ok a
  | (k, v) :: rest => do
      let a' ← append_at a k v
      fold_append a' rest

/-- One iteration of the sweep loop of `dspsrTrials.execute` (source lines
190–206), at index `ii` with varied value `arg_val`. -/
def exec_one (streams : Nat → String × String) (acc : dspsrTrials)
    (iv : Nat × Val) : Except String dspsrTrials := do
  let (ii, arg_val) := iv
  -- `print "Run %d of %d: %s = %d" % (...)` formats `arg_val` with `%d`
  let _ ← pyFmtD arg_val
  let args := dictInsert acc.fixed_args acc.varied_arg arg_val
  let args := dictInsert args "print_cmd" (.b true)
  let r ← test_dspsr args (streams ii).1 (streams ii).2
  let acc1 ←
    if !(r.out.any (fun line => substr "Error" line)) then do
      let at0 := if acc.all_times.length = 0 then
          r.times.map (fun p => (p.1, ([] : List ℚ))) else acc.all_times
      let at1 ← fold_append at0 r.times
      pure { acc with all_times := at1
                      all_utime := acc.all_utime ++ [r.unix_time]
                      good_runs := acc.good_runs.set ii true }
    else pure acc
  pure { acc1 with all_stdout := acc1.all_stdout ++ [r.out]
                   all_stderr := acc1.all_stderr ++ [r.err]
                   all_dspsr_calls := acc1.all_dspsr_calls ++ [r.call] }

/-- The sweep loop over the remaining `(index, value)` pairs. -/
def exec_runs (streams : Nat → String × String) :
    dspsrTrials → List (Nat × Val) → Except String dspsrTrials
  | acc, [] => .ok acc
  | acc, iv :: rest => do
      let acc' ← exec_one streams acc iv
      exec_runs streams acc' rest

/-- `dspsrTrials.execute` (source lines 186–209).  When `executed` is
already true it only reports a message and changes nothing; otherwise it
runs every value in order and then sets `executed`.  `streams` supplies the
child process's `(stdout, stderr)` texts for each run index. -/
def dspsrTrials.execute (s : dspsrTrials) (streams : Nat → String × String) :
    Except String dspsrTrials :=
  if s.executed then .ok s
  else do
    let r ← exec_runs streams s s.varied_arg_values.enum
    .ok { r with executed := true }

/-- `dspsrTrials.add_comment` (source lines 211–212). -/
def dspsrTrials.add_comment (s : dspsrTrials) (c : String) : dspsrTrials :=
  { s with comment := c }

/-- `dspsrTrials.save_results` (source lines 214–223): a sweep that has not
executed is not written at all (only a message is printed); otherwise the
whole object is pickled.  The pickled byte stream is modelled by the object
it faithfully encodes. -/
def dspsrTrials.save_results (s : dspsrTrials) : Option dspsrTrials :=
  if !s.executed then none else some s

/-- `dspsrTrials.from_file` (source lines 164–184): rebuild a fresh object
from the unpickled one attribute by attribute, setting `executed` to true
unconditionally. -/
def dspsrTrials.from_file (loaded : dspsrTrials) : dspsrTrials :=
  let n := dspsrTrials.init loaded.varied_arg loaded.varied_arg_values
    loaded.fixed_args
  { n with executed := true
           all_times := loaded.all_times
           all_utime := loaded.all_utime
           all_stdout := loaded.all_stdout
           all_stderr := loaded.all_stderr
           all_dspsr_calls := loaded.all_dspsr_calls
           good_runs := loaded.good_runs
           comment := loaded.comment }

/-- The unconditional first five entries of `arg_dict` (source lines
48–53), with the rendered flag values abstracted. -/
def arg_base (s1 s2 s3 s4 : String) : List (String × Option String) :=
  [("-F", some (s1 ++ ":D")), ("-r", none), ("-cuda", some s2),
   ("-T", some s3), ("-minram", some s4)]

/-- Any successful `build_arg_dict` result is the five unconditional flags,
then the `-D`, `-x` and `-t` conditional steps in that order. -/

instance {ε α : Type} [DecidableEq ε] [DecidableEq α] : DecidableEq (Except ε α) :=
  fun x y =>
    match x, y with
    | .error a, .error b =>
        if h : a = b then .isTrue (h ▸ rfl)
        else .isFalse (fun he => h (Except.error.inj he))
    | .ok a, .ok b =>
        if h : a = b then .isTrue (h ▸ rfl)
        else .isFalse (fun he => h (Except.ok.inj he))
    | .error _, .ok _ => .isFalse (fun he => Except.noConfusion he)
    | .ok _, .error _ => .isFalse (fun he => Except.noConfusion he)

/-- The `time_line` flag after processing one line: cleared by a line
containing "unloading", then set by a line containing "Time Spent" (source
lines 113 and 125); independent of the timing values. -/
def flag_after (fl : Bool) (line : String) : Bool :=
  let f1 := if substr "unloading" line then false else fl
  if substr "Time Spent" line then true else f1

/-- A line is benign for the parse at flag state `fl`: it is empty, or the
token its branch reads exists and parses as a float. -/
def step_ok (fl : Bool) (line : String) : Bool :=
  let ts := pySplit line
  let tl1 := if substr "unloading" line then false else fl
  if ts.length ≠ 0 then
    if tl1 then ((ts.get? 1).bind parseQ).isSome
    else if substr "dspsr: prepared in" line then ((ts.get? 3).bind parseQ).isSome
    else if substr "dsp::Archiver::unload in" line then ((ts.get? 2).bind parseQ).isSome
    else if substr "TOTAL WALL TIME ELAPSED" line then ((ts.get? 4).bind parseQ).isSome
    else true
  else true

/-- Every line of the list is benign when reached with the flag state the
previous lines produce, starting from `fl`. -/
def wf_lines : Bool → List String → Bool
  | _, [] => true
  | fl, l :: rest => step_ok fl l && wf_lines (flag_after fl l) rest


/-! ### Dictionary lemmas -/

theorem lookup_append_single_self {α : Type} (d : List (String × α)) (k : String)
    (v : α) (h : d.lookup k = none) : (d ++ [(k, v)]).lookup k = some v := by
  induction d with
  | nil => simp [List.lookup]
  | cons p rest ih =>
      rw [List.cons_append, List.lookup_cons]
      rw [List.lookup_cons] at h
      cases hbe : (k == p.1) with
      | true => simp [hbe] at h
      | false =>
          simp only [hbe]
          exact ih (by simpa [hbe] using h)

theorem lookup_append_single_ne {α : Type} (d : List (String × α)) (k k' : String)
    (v : α) (h : k' ≠ k) : (d ++ [(k, v)]).lookup k' = d.lookup k' := by
  induction d with
  | nil => simp [List.lookup, beq_eq_false_iff_ne.mpr h]
  | cons p rest ih =>
      rw [List.cons_append, List.lookup_cons, List.lookup_cons]
      cases hbe : (k' == p.1) with
      | true => rfl
      | false => simpa [hbe] using ih

theorem lookup_map_replace {α : Type} (d : List (String × α)) (k : String) (v : α)
    (h : (d.lookup k).isSome) :
    (d.map (fun p => if p.1 = k then (k, v) else p)).lookup k = some v := by
  induction d with
  | nil => simp [List.lookup] at h
  | cons p rest ih =>
      by_cases hp : p.1 = k
      · simp only [List.map_cons, if_pos hp]
        rw [List.lookup_cons, beq_self_eq_true]
      · simp only [List.map_cons, if_neg hp]
        rw [List.lookup_cons] at h ⊢
        have hbe : (k == p.1) = false := beq_eq_false_iff_ne.mpr (fun he => hp he.symm)
        simp only [hbe] at h ⊢
        exact ih h

theorem lookup_map_replace_ne {α : Type} (d : List (String × α)) (k k' : String)
    (v : α) (h : k' ≠ k) :
    (d.map (fun p => if p.1 = k then (k, v) else p)).lookup k' = d.lookup k' := by
  induction d with
  | nil => simp
  | cons p rest ih =>
      by_cases hp : p.1 = k
      · simp only [List.map_cons, if_pos hp]
        rw [List.lookup_cons, List.lookup_cons]
        have h1 : (k' == k) = false := beq_eq_false_iff_ne.mpr h
        have h2 : (k' == p.1) = false := beq_eq_false_iff_ne.mpr (hp ▸ h)
        simp only [h1, h2]
        exact ih
      · simp only [List.map_cons, if_neg hp]
        rw [List.lookup_cons, List.lookup_cons]
        cases hbe : (k' == p.1) with
        | true => rfl
        | false => exact ih

theorem lookup_dictInsert_ne {α : Type} (d : List (String × α)) (k k' : String)
    (v : α) (h : k' ≠ k) : (dictInsert d k v).lookup k' = d.lookup k' := by
  unfold dictInsert
  by_cases hs : (d.lookup k).isSome
  · rw [if_pos hs]
    exact lookup_map_replace_ne d k k' v h
  · rw [if_neg hs]
    exact lookup_append_single_ne d k k' v h

theorem lookup_setDefault_of_some (d : List (String × Val)) (k : String)
    (v w : Val) (h : d.lookup k = some w) : setDefault d k v = d := by
  unfold setDefault
  rw [h]
  rfl

theorem lookup_setDefault_of_none (d : List (String × Val)) (k : String)
    (v : Val) (h : d.lookup k = none) : (setDefault d k v).lookup k = some v := by
  unfold setDefault
  rw [h]
  simpa using lookup_append_single_self d k v h

theorem lookup_setDefault_ne (d : List (String × Val)) (k k' : String)
    (v : Val) (h : k' ≠ k) : (setDefault d k v).lookup k' = d.lookup k' := by
  unfold setDefault
  by_cases hs : (d.lookup k).isSome
  · rw [if_pos hs]
  · rw [if_neg hs]
    exact lookup_append_single_ne d k k' v h

theorem lookup_setDefault (d : List (String × Val)) (k k' : String) (v : Val) :
    (setDefault d k' v).lookup k =
      if k = k' then some ((d.lookup k).getD v) else d.lookup k := by
  by_cases hk : k = k'
  · subst hk
    rw [if_pos rfl]
    cases hd : d.lookup k with
    | some w => rw [lookup_setDefault_of_some d k v w hd, hd]; rfl
    | none => rw [lookup_setDefault_of_none d k v hd]; rfl
  · rw [if_neg hk]
    exact lookup_setDefault_ne d k' k v hk

/-- C9: every optional field absent from the keyword arguments is given
exactly the documented default (output channels 1024, duration 10, device
"0", memory floor 1, source "1937+21", frequency 600.0, input channels 16,
bandwidth 400.0), and a field supplied by the caller is left unchanged. -/
theorem C9_defaults (kw : List (String × Val)) :
    ((kw.lookup "F" = none → (apply_defaults kw).lookup "F" = some (.i 1024)) ∧
      (∀ v, kw.lookup "F" = some v → (apply_defaults kw).lookup "F" = some v)) ∧
    ((kw.lookup "T" = none → (apply_defaults kw).lookup "T" = some (.i 10)) ∧
      (∀ v, kw.lookup "T" = some v → (apply_defaults kw).lookup "T" = some v)) ∧
    ((kw.lookup "cuda" = none → (apply_defaults kw).lookup "cuda" = some (.s "0")) ∧
      (∀ v, kw.lookup "cuda" = some v → (apply_defaults kw).lookup "cuda" = some v)) ∧
    ((kw.lookup "minram" = none → (apply_defaults kw).lookup "minram" = some (.i 1)) ∧
      (∀ v, kw.lookup "minram" = some v → (apply_defaults kw).lookup "minram" = some v)) ∧
    ((kw.lookup "source" = none →
        (apply_defaults kw).lookup "source" = some (.s "1937+21")) ∧
      (∀ v, kw.lookup "source" = some v → (apply_defaults kw).lookup "source" = some v)) ∧
    ((kw.lookup "freq" = none → (apply_defaults kw).lookup "freq" = some (.q 600)) ∧
      (∀ v, kw.lookup "freq" = some v → (apply_defaults kw).lookup "freq" = some v)) ∧
    ((kw.lookup "nchan" = none → (apply_defaults kw).lookup "nchan" = some (.i 16)) ∧
      (∀ v, kw.lookup "nchan" = some v → (apply_defaults kw).lookup "nchan" = some v)) ∧
    ((kw.lookup "bw" = none → (apply_defaults kw).lookup "bw" = some (.q 400)) ∧
      (∀ v, kw.lookup "bw" = some v → (apply_defaults kw).lookup "bw" = some v)) := by
  refine ⟨⟨?_, ?_⟩, ⟨?_, ?_⟩, ⟨?_, ?_⟩, ⟨?_, ?_⟩, ⟨?_, ?_⟩, ⟨?_, ?_⟩, ⟨?_, ?_⟩, ?_, ?_⟩ <;>
    first
      | (intro h; simp [apply_defaults, lookup_setDefault, h])
      | (intro v h; simp [apply_defaults, lookup_setDefault, h])

/-- Witness for C9 at the concrete argument dictionary `{"F": 7}`: the
supplied field is kept, and an absent field gets its documented default. -/
theorem C9_defaults_witness :
    (apply_defaults [("F", Val.i 7)]).lookup "F" = some (.i 7) ∧
    (apply_defaults [("F", Val.i 7)]).lookup "T" = some (.i 10) :=
  ⟨(C9_defaults [("F", Val.i 7)]).1.2 (.i 7) rfl,
   (C9_defaults [("F", Val.i 7)]).2.1.1 rfl⟩

theorem lookup_dictInsert_self {α : Type} (d : List (String × α)) (k : String)
    (v : α) : (dictInsert d k v).lookup k = some v := by
  unfold dictInsert
  by_cases hs : (d.lookup k).isSome
  · rw [if_pos hs]
    exact lookup_map_replace d k v hs
  · rw [if_neg hs]
    exact lookup_append_single_self d k v (by
      cases hd : d.lookup k with
      | some w => rw [hd] at hs; simp at hs
      | none => rfl)

theorem map_fst_map_replace {α : Type} (d : List (String × α)) (k : String)
    (v : α) :
    ((d.map (fun p => if p.1 = k then (k, v) else p)).map Prod.fst) =
      d.map Prod.fst := by
  induction d with
  | nil => rfl
  | cons p rest ih =>
      by_cases hp : p.1 = k
      · simp only [List.map_cons, if_pos hp, ih]
        rw [hp]
      · simp only [List.map_cons, if_neg hp, ih]

theorem not_mem_keys_of_lookup_none {α : Type} (d : List (String × α))
    (k : String) (h : d.lookup k = none) : k ∉ d.map Prod.fst := by
  induction d with
  | nil => simp
  | cons p rest ih =>
      rw [List.lookup_cons] at h
      cases hbe : (k == p.1) with
      | true => simp [hbe] at h
      | false =>
          simp only [hbe] at h
          simp only [List.map_cons, List.mem_cons]
          rintro (rfl | hm)
          · simp at hbe
          · exact ih h hm

theorem nodup_keys_dictInsert {α : Type} (d : List (String × α)) (k : String)
    (v : α) (h : (d.map Prod.fst).Nodup) :
    ((dictInsert d k v).map Prod.fst).Nodup := by
  unfold dictInsert
  by_cases hs : (d.lookup k).isSome
  · rw [if_pos hs, map_fst_map_replace]
    exact h
  · rw [if_neg hs]
    have hn : d.lookup k = none := by
      cases hd : d.lookup k with
      | some w => rw [hd] at hs; simp at hs
      | none => rfl
    rw [List.map_append]
    simp only [List.map_cons, List.map_nil]
    rw [List.nodup_append]
    refine ⟨h, List.nodup_singleton k, ?_⟩
    intro x hx hk
    simp only [List.mem_singleton] at hk
    subst hk
    exact not_mem_keys_of_lookup_none d x hn hx

theorem build_arg_dict_shape (d : List (String × Val))
    (a : List (String × Option String)) (h : build_arg_dict d = .ok a) :
    ∃ s1 s2 s3 s4 a2,
      arg_dict_x d (arg_dict_D d (arg_base s1 s2 s3 s4)) = .ok a2 ∧
      a = arg_dict_t d a2 := by
  unfold build_arg_dict at h
  simp only [Bind.bind] at h
  cases hF : dget d "F" with
  | error e => rw [hF] at h; simp [Except.bind] at h
  | ok fv =>
  rw [hF] at h
  simp only [Except.bind] at h
  cases hFs : pyFmtD fv with
  | error e => rw [hFs] at h; simp [Except.bind] at h
  | ok fs =>
  rw [hFs] at h
  simp only [Except.bind] at h
  cases hCu : dget d "cuda" with
  | error e => rw [hCu] at h; simp [Except.bind] at h
  | ok cu =>
  rw [hCu] at h
  simp only [Except.bind] at h
  cases hT : dget d "T" with
  | error e => rw [hT] at h; simp [Except.bind] at h
  | ok tv =>
  rw [hT] at h
  simp only [Except.bind] at h
  cases hM : dget d "minram" with
  | error e => rw [hM] at h; simp [Except.bind] at h
  | ok mr =>
  rw [hM] at h
  simp only [Except.bind] at h
  refine ⟨fs, pyStrV cu, pyStrV tv, pyStrV mr, ?_⟩
  have hbase : dictInsert (dictInsert (dictInsert (dictInsert (dictInsert
      ([] : List (String × Option String)) "-F" (some (fs ++ ":D"))) "-r" none)
      "-cuda" (some (pyStrV cu))) "-T" (some (pyStrV tv))) "-minram"
      (some (pyStrV mr)) = arg_base fs (pyStrV cu) (pyStrV tv) (pyStrV mr) := by
    simp [dictInsert, List.lookup, arg_base]
  rw [hbase] at h
  cases hx : arg_dict_x d (arg_dict_D d (arg_base fs (pyStrV cu) (pyStrV tv)
      (pyStrV mr))) with
  | error e => rw [hx] at h; simp [Except.bind] at h
  | ok a2 =>
      rw [hx] at h
      simp only [Except.bind, pure, Except.pure, Except.ok.injEq] at h
      exact ⟨a2, rfl, h.symm⟩

theorem lookup_arg_dict_t_x (d : List (String × Val))
    (a : List (String × Option String)) :
    (arg_dict_t d a).lookup "-x" = a.lookup "-x" := by
  unfold arg_dict_t
  cases d.lookup "t" with
  | some v => exact lookup_dictInsert_ne a "-t" "-x" (some (pyStrV v)) (by decide)
  | none => rfl

theorem lookup_arg_dict_D_x (d : List (String × Val))
    (a : List (String × Option String)) :
    (arg_dict_D d a).lookup "-x" = a.lookup "-x" := by
  unfold arg_dict_D
  cases d.lookup "D" with
  | some v => exact lookup_dictInsert_ne a "-D" "-x" (some (pyStrV v)) (by decide)
  | none => rfl

theorem lookup_arg_base_x (s1 s2 s3 s4 : String) :
    (arg_base s1 s2 s3 s4).lookup "-x" = none := by
  simp [arg_base, List.lookup]

theorem nodup_arg_dict_D (d : List (String × Val))
    (a : List (String × Option String)) (h : (a.map Prod.fst).Nodup) :
    ((arg_dict_D d a).map Prod.fst).Nodup := by
  unfold arg_dict_D
  cases d.lookup "D" with
  | some v => exact nodup_keys_dictInsert a "-D" (some (pyStrV v)) h
  | none => exact h

theorem nodup_arg_dict_t (d : List (String × Val))
    (a : List (String × Option String)) (h : (a.map Prod.fst).Nodup) :
    ((arg_dict_t d a).map Prod.fst).Nodup := by
  unfold arg_dict_t
  cases d.lookup "t" with
  | some v => exact nodup_keys_dictInsert a "-t" (some (pyStrV v)) h
  | none => exact h

theorem nodup_arg_dict_x (d : List (String × Val))
    (a a' : List (String × Option String)) (hx : arg_dict_x d a = .ok a')
    (h : (a.map Prod.fst).Nodup) : ((a'.map Prod.fst)).Nodup := by
  unfold arg_dict_x at hx
  cases hf : d.lookup "fftlen" with
  | some v =>
      rw [hf] at hx
      cases hx
      exact nodup_keys_dictInsert a "-x" (some (pyStrV v)) h
  | none =>
      rw [hf] at hx
      cases hm : d.lookup "minX" with
      | some w =>
          rw [hm] at hx
          simp only [Bind.bind] at hx
          cases hws : pyFmtD w with
          | error e => rw [hws] at hx; simp [Except.bind] at hx
          | ok ws =>
              rw [hws] at hx
              simp only [Except.bind, Except.ok.injEq] at hx
              rw [← hx]
              exact nodup_keys_dictInsert a "-x" (some ("minX" ++ ws)) h
      | none =>
          rw [hm] at hx
          cases hx
          exact h

theorem build_arg_dict_nodup (d : List (String × Val))
    (a : List (String × Option String)) (h : build_arg_dict d = .ok a) :
    (a.map Prod.fst).Nodup := by
  obtain ⟨s1, s2, s3, s4, a2, hx, hat⟩ := build_arg_dict_shape d a h
  have hb : ((arg_base s1 s2 s3 s4).map Prod.fst).Nodup := by
    simp [arg_base]
  subst hat
  exact nodup_arg_dict_t d a2 (nodup_arg_dict_x d _ a2 hx (nodup_arg_dict_D d _ hb))

theorem lookup_apply_defaults_fftlen (kw : List (String × Val)) :
    (apply_defaults kw).lookup "fftlen" = kw.lookup "fftlen" := by
  simp [apply_defaults, lookup_setDefault]

theorem lookup_apply_defaults_minX (kw : List (String × Val)) :
    (apply_defaults kw).lookup "minX" = kw.lookup "minX" := by
  simp [apply_defaults, lookup_setDefault]

set_option maxHeartbeats 1000000 in
/-- C7: the flags map never carries both FFT-sizing forms.  When both
`fftlen` and `minX` are supplied, `-x` carries `str(fftlen)` and the
multiplier is dropped (and keys are unrepeated, so there is one `-x`
entry); when neither is supplied, no `-x` entry exists at all. -/
theorem C7_fft_flag (kw : List (String × Val)) :
    (∀ v w a, kw.lookup "fftlen" = some v → kw.lookup "minX" = some w →
      build_arg_dict (apply_defaults kw) = .ok a →
      a.lookup "-x" = some (some (pyStrV v)) ∧
        (a.map Prod.fst).count "-x" ≤ 1) ∧
    (∀ a, kw.lookup "fftlen" = none → kw.lookup "minX" = none →
      build_arg_dict (apply_defaults kw) = .ok a →
      a.lookup "-x" = none ∧ "-x" ∉ a.map Prod.fst) := by
  constructor
  · intro v w a hf _ h
    obtain ⟨s1, s2, s3, s4, a2, hx, hat⟩ := build_arg_dict_shape _ a h
    unfold arg_dict_x at hx
    rw [lookup_apply_defaults_fftlen, hf] at hx
    cases hx
    refine ⟨?_, ?_⟩
    · rw [hat, lookup_arg_dict_t_x]
      exact lookup_dictInsert_self _ "-x" (some (pyStrV v))
    · exact List.nodup_iff_count_le_one.mp (build_arg_dict_nodup _ a h) "-x"
  · intro a hf hm h
    obtain ⟨s1, s2, s3, s4, a2, hx, hat⟩ := build_arg_dict_shape _ a h
    unfold arg_dict_x at hx
    rw [lookup_apply_defaults_fftlen, hf, lookup_apply_defaults_minX, hm] at hx
    cases hx
    have hnone : a.lookup "-x" = none := by
      rw [hat, lookup_arg_dict_t_x, lookup_arg_dict_D_x, lookup_arg_base_x]
    exact ⟨hnone, not_mem_keys_of_lookup_none a "-x" hnone⟩

/-- Witness for C7: with both `fftlen=8192` and `minX=4` the `-x` flag
carries `8192`; with neither, no `-x` entry is built. -/
theorem C7_fft_flag_witness :
    ((build_arg_dict (apply_defaults [("fftlen", Val.i 8192), ("minX", Val.i 4)])
        ).toOption.getD []).lookup "-x" = some (some "8192") ∧
    ((build_arg_dict (apply_defaults [])).toOption.getD []).lookup "-x" = none :=
  ⟨((C7_fft_flag [("fftlen", Val.i 8192), ("minX", Val.i 4)]).1
      (.i 8192) (.i 4) _ rfl rfl rfl).1,
   ((C7_fft_flag []).2 _ rfl rfl rfl).1⟩

/-- C8: with input channel count `C` (given or defaulted) and bandwidth
`B > 0` (given or defaulted), the command's sample-time header field is
exactly `C / B` (rendered with the `%f` fixed-point format). -/
theorem C8_tsamp (kw : List (String × Val)) (cmd : List String) (C : Int) (B : ℚ)
    (hn : (apply_defaults kw).lookup "nchan" = some (.i C))
    (hb : (apply_defaults kw).lookup "bw" = some (.q B))
    (hpos : 0 < B)
    (h : build_cmd kw = .ok cmd) :
    ("TSAMP=" ++ fmtF ((C : ℚ) / B)) ∈ cmd := by
  unfold build_cmd at h
  simp only [Bind.bind] at h
  cases ha : build_arg_dict (apply_defaults kw) with
  | error e => rw [ha] at h; simp [Except.bind] at h
  | ok a =>
  rw [ha] at h
  simp only [Except.bind] at h
  cases hh : build_header (apply_defaults kw) with
  | error e => rw [hh] at h; simp [Except.bind] at h
  | ok hd =>
  rw [hh] at h
  simp only [Except.bind, Functor.map, Except.map, pure, Except.pure,
    Except.ok.injEq] at h
  subst h
  unfold build_header at hh
  simp only [Bind.bind] at hh
  cases hs : dget (apply_defaults kw) "source" with
  | error e => rw [hs] at hh; simp [Except.bind] at hh
  | ok src =>
  rw [hs] at hh
  simp only [Except.bind] at hh
  cases hf : dget (apply_defaults kw) "freq" with
  | error e => rw [hf] at hh; simp [Except.bind] at hh
  | ok fr =>
  rw [hf] at hh
  simp only [Except.bind] at hh
  have hnc : dget (apply_defaults kw) "nchan" = .ok (.i C) := by
    unfold dget; rw [hn]
  rw [hnc] at hh
  simp only [Except.bind] at hh
  have hbw : dget (apply_defaults kw) "bw" = .ok (.q B) := by
    unfold dget; rw [hb]
  rw [hbw] at hh
  simp only [Except.bind] at hh
  have hfmt : pyFmtD (Val.i C) = .ok (toString C) := rfl
  rw [hfmt] at hh
  simp only [Except.bind] at hh
  have hfl : pyFloatV (Val.q B) = .ok B := rfl
  rw [hfl] at hh
  simp only [Except.bind] at hh
  have hdiv : pyDivV (Val.i C) B = .ok ((C : ℚ) / B) := by
    show (if B = 0 then Except.error "ZeroDivisionError"
      else do
        let x ← pyFloatV (Val.i C)
        .ok (x / B)) = .ok ((C : ℚ) / B)
    rw [if_neg (ne_of_gt hpos)]
    rfl
  rw [hdiv] at hh
  simp only [Except.bind, Functor.map, Except.map, pure, Except.pure,
    Except.ok.injEq] at hh
  subst hh
  simp

/-- Witness for C8 at the all-defaults invocation: channels 16, bandwidth
400, sample-time field `16/400`. -/
theorem C8_tsamp_witness :
    ("TSAMP=" ++ fmtF ((16 : ℚ) / 400)) ∈ ((build_cmd []).toOption.getD []) :=
  C8_tsamp [] _ 16 400 rfl rfl (by norm_num) rfl

/-- C1: the execution layer does NOT parse the child's standard output and
does NOT return it in the output slot.  `communicate()` returns
`(stdout, stderr)` but the source destructures it as `ex_err, ex_out`, so
with a wall-time marker on standard output and empty standard error the
parse sees nothing (wall time stays at the `-1` sentinel) and the marker
text surfaces in the error slot; with the streams exchanged the marker on
standard error IS parsed and fills the output slot. -/
theorem C1_stream_swap :
    (test_dspsr [] "TOTAL WALL TIME ELAPSED: 5.0 seconds" "").toOption.map
        (fun r => (r.times, r.unix_time, r.out, r.err)) =
      some ([], -1, [""], "TOTAL WALL TIME ELAPSED: 5.0 seconds") ∧
    (test_dspsr [] "" "TOTAL WALL TIME ELAPSED: 5.0 seconds").toOption.map
        (fun r => (r.times, r.unix_time, r.out, r.err)) =
      some ([], 5, ["TOTAL WALL TIME ELAPSED: 5.0 seconds"], "") := by
  constructor <;> with_unfolding_all decide


theorem lget_parse_ok (ts : List String) (i : Nat)
    (h : ((ts.get? i).bind parseQ).isSome = true) :
    ∃ w v, lget ts i = .ok w ∧ pyFloatStr w = .ok v ∧ parseQ w = some v := by
  cases hw : ts.get? i with
  | none => rw [hw] at h; simp at h
  | some w =>
      rw [hw] at h
      simp only [Option.some_bind] at h
      cases hv : parseQ w with
      | none => rw [hv] at h; simp at h
      | some v =>
          refine ⟨w, v, ?_, ?_, hv⟩
          · unfold lget
            rw [hw]
          · unfold pyFloatStr
            rw [hv]

theorem parse_step_ok (fl : Bool) (t : List (String × ℚ)) (u : ℚ) (l : String)
    (h : step_ok fl l = true) :
    ∃ t' u', parse_step (fl, t, u) l = .ok (flag_after fl l, t', u') := by
  unfold step_ok at h
  unfold parse_step flag_after
  simp only [Bind.bind]
  by_cases hlen : (pySplit l).length ≠ 0
  case neg =>
    rw [if_neg hlen]
    exact ⟨t, u, by simp [Except.bind, pure, Except.pure]⟩
  case pos =>
    rw [if_pos hlen] at h ⊢
    cases htl1 : (if substr "unloading" l then false else fl) with
    | true =>
        rw [htl1] at h
        simp only [eq_self_iff_true, if_true] at h ⊢
        obtain ⟨w, v, hw, hv, _⟩ := lget_parse_ok _ 1 h
        rw [hw]
        simp only [Except.bind]
        rw [hv]
        simp only [Except.bind, pure, Except.pure]
        exact ⟨_, _, rfl⟩
    | false =>
        rw [htl1] at h
        simp only [Bool.false_eq_true, if_false] at h ⊢
        by_cases hp : substr "dspsr: prepared in" l = true
        · rw [if_pos hp] at h ⊢
          obtain ⟨w, v, hw, hv, _⟩ := lget_parse_ok _ 3 h
          rw [hw]
          simp only [Except.bind]
          rw [hv]
          simp only [Except.bind, pure, Except.pure]
          exact ⟨_, _, rfl⟩
        · rw [if_neg hp] at h ⊢
          by_cases har : substr "dsp::Archiver::unload in" l = true
          · rw [if_pos har] at h ⊢
            obtain ⟨w, v, hw, hv, _⟩ := lget_parse_ok _ 2 h
            rw [hw]
            simp only [Except.bind]
            rw [hv]
            simp only [Except.bind, pure, Except.pure]
            exact ⟨_, _, rfl⟩
          · rw [if_neg har] at h ⊢
            by_cases htw : substr "TOTAL WALL TIME ELAPSED" l = true
            · rw [if_pos htw] at h ⊢
              obtain ⟨w, v, hw, hv, _⟩ := lget_parse_ok _ 4 h
              rw [hw]
              simp only [Except.bind]
              rw [hv]
              simp only [Except.bind, pure, Except.pure]
              exact ⟨_, _, rfl⟩
            · rw [if_neg htw]
              exact ⟨t, u, by simp [Except.bind, pure, Except.pure]⟩

theorem except_bind_ok {ε α β : Type} (m : Except ε α) (k : α → Except ε β)
    (r : β) (h : m.bind k = .ok r) : ∃ y, m = .ok y ∧ k y = .ok r := by
  cases m with
  | error e => simp [Except.bind] at h
  | ok y => exact ⟨y, rfl, by simpa [Except.bind] using h⟩

/-- A successful parse step on a line without the wall-time marker leaves
the wall-time slot unchanged. -/
theorem parse_step_unix (fl : Bool) (t : List (String × ℚ)) (u : ℚ) (l : String)
    (st' : Bool × List (String × ℚ) × ℚ) (h : parse_step (fl, t, u) l = .ok st')
    (hno : substr "TOTAL WALL TIME ELAPSED" l = false) : st'.2.2 = u := by
  unfold parse_step at h
  simp only [Bind.bind] at h
  rw [hno] at h
  simp only [Bool.false_eq_true, if_false] at h
  repeat' split at h
  all_goals
    first
    | (obtain ⟨w, hw, h2⟩ := except_bind_ok _ _ _ h
       obtain ⟨v, hv, h3⟩ := except_bind_ok _ _ _ h2
       simp only [Except.bind, pure, Except.pure, Except.ok.injEq] at h3
       rw [← h3])
    | (simp only [Except.bind, pure, Except.pure, Except.ok.injEq] at h
       rw [← h])

theorem parse_lines_ok (lines : List String) : ∀ (fl : Bool)
    (t : List (String × ℚ)) (u : ℚ), wf_lines fl lines = true →
    ∃ r, parse_lines (fl, t, u) lines = .ok r := by
  induction lines with
  | nil => exact fun fl t u _ => ⟨(t, u), rfl⟩
  | cons l rest ih =>
      intro fl t u hwf
      unfold wf_lines at hwf
      rw [Bool.and_eq_true] at hwf
      obtain ⟨t', u', hstep⟩ := parse_step_ok fl t u l hwf.1
      obtain ⟨r, hr⟩ := ih (flag_after fl l) t' u' hwf.2
      refine ⟨r, ?_⟩
      unfold parse_lines
      simp only [Bind.bind]
      rw [hstep]
      simpa [Except.bind] using hr

theorem parse_lines_unix (lines : List String) : ∀ (fl : Bool)
    (t : List (String × ℚ)) (u : ℚ) (r : List (String × ℚ) × ℚ),
    parse_lines (fl, t, u) lines = .ok r →
    (∀ l ∈ lines, substr "TOTAL WALL TIME ELAPSED" l = false) → r.2 = u := by
  induction lines with
  | nil =>
      intro fl t u r h _
      unfold parse_lines at h
      simp only [Except.ok.injEq] at h
      rw [← h]
  | cons l rest ih =>
      intro fl t u r h hno
      unfold parse_lines at h
      simp only [Bind.bind] at h
      obtain ⟨st', hstep, hrest⟩ := except_bind_ok _ _ _ h
      have h2 : st'.2.2 = u :=
        parse_step_unix fl t u l st' hstep (hno l (List.mem_cons_self l rest))
      have h3 : r.2 = st'.2.2 := by
        cases st' with
        | mk a bc =>
            cases bc with
            | mk b c =>
                exact ih a b c r hrest (fun x hx => hno x (List.mem_cons_of_mem l hx))
      rw [h3, h2]

/-- C6 fails on the code: a one-token line inside the timing block makes
the parse raise an `IndexError` (`split_line[1]` out of range), so the
parse step does not complete for every line sequence. -/
theorem C6_counterexample :
    parse_times ["Time Spent", "x"] = Except.error "IndexError" := by
  with_unfolding_all decide

/-- C6 amended: the parse completes without raising for every line sequence
in which each non-empty line supplies a parseable numeric token at the
position its branch reads (second token while the timing flag is set;
fourth, third, or fifth token for the prepared / unload / wall-time marker
lines). -/
theorem C6_parse_no_raise_amended (lines : List String)
    (h : wf_lines false lines = true) :
    (parse_times lines).toOption.isSome = true := by
  obtain ⟨r, hr⟩ := parse_lines_ok lines false [] (-1) h
  unfold parse_times
  rw [hr]
  rfl

/-- Witness for the amended C6 on a realistic benign output. -/
theorem C6_parse_no_raise_witness :
    (parse_times ["dspsr: prepared in 1.5 seconds", "Time Spent", "Fold 2.0",
      "unloading data", "TOTAL WALL TIME ELAPSED: 3.0 seconds"]
      ).toOption.isSome = true :=
  C6_parse_no_raise_amended _ (by with_unfolding_all decide)

/-- C3 fails on the code: the prepared/unload/wall-time pattern branches
are `elif` arms behind the `time_line` test, so they are not reached while
the flag is true.  With the flag raised by a "Time Spent" line, the
wall-time marker line is treated as a generic stage line and its second
token "WALL" fails float conversion; without the flag the same line is
parsed into wall time 5. -/
theorem C3_counterexample :
    parse_times ["TOTAL WALL TIME ELAPSED: 5.0 seconds"] = .ok ([], 5) ∧
    parse_times ["Time Spent", "TOTAL WALL TIME ELAPSED: 5.0 seconds"] =
      Except.error "ValueError" := by
  constructor <;> with_unfolding_all decide

/-- C3 amended: the prepared / unload / wall-time pattern lines are parsed
and recorded under "Preparation" / "Unloading" / the scalar wall time only
when the effective timing flag at that line is false (the flag having first
been cleared by any "unloading" occurrence in the line); and the wall time
stays at the sentinel `-1` whenever no wall-time marker line is present. -/
theorem C3_pattern_lines_amended :
    (∀ (fl : Bool) (t : List (String × ℚ)) (u : ℚ) (line : String) (w : String)
      (q : ℚ), (if substr "unloading" line then false else fl) = false →
      pySplit line ≠ [] → substr "dspsr: prepared in" line = true →
      (pySplit line).get? 3 = some w → parseQ w = some q →
      parse_step (fl, t, u) line =
        .ok (flag_after fl line, dictInsert t "Preparation" q, u)) ∧
    (∀ (fl : Bool) (t : List (String × ℚ)) (u : ℚ) (line : String) (w : String)
      (q : ℚ), (if substr "unloading" line then false else fl) = false →
      pySplit line ≠ [] → substr "dspsr: prepared in" line = false →
      substr "dsp::Archiver::unload in" line = true →
      (pySplit line).get? 2 = some w → parseQ w = some q →
      parse_step (fl, t, u) line =
        .ok (flag_after fl line, dictInsert t "Unloading" q, u)) ∧
    (∀ (fl : Bool) (t : List (String × ℚ)) (u : ℚ) (line : String) (w : String)
      (q : ℚ), (if substr "unloading" line then false else fl) = false →
      pySplit line ≠ [] → substr "dspsr: prepared in" line = false →
      substr "dsp::Archiver::unload in" line = false →
      substr "TOTAL WALL TIME ELAPSED" line = true →
      (pySplit line).get? 4 = some w → parseQ w = some q →
      parse_step (fl, t, u) line = .ok (flag_after fl line, t, q)) ∧
    (∀ (lines : List String) (r : List (String × ℚ) × ℚ),
      parse_times lines = .ok r →
      (∀ l ∈ lines, substr "TOTAL WALL TIME ELAPSED" l = false) →
      r.2 = -1) := by
  refine ⟨?_, ?_, ?_, ?_⟩
  · intro fl t u line w q heff hne hp hw hq
    unfold parse_step flag_after
    simp only [Bind.bind]
    rw [heff]
    simp only [Bool.false_eq_true, if_false]
    rw [if_pos (by simpa using hne), if_pos hp]
    unfold lget
    rw [hw]
    simp only [Except.bind]
    unfold pyFloatStr
    rw [hq]
    simp only [Except.bind, pure, Except.pure]
  · intro fl t u line w q heff hne hp har hw hq
    unfold parse_step flag_after
    simp only [Bind.bind]
    rw [heff]
    simp only [Bool.false_eq_true, if_false]
    rw [if_pos (by simpa using hne), hp]
    simp only [Bool.false_eq_true, if_false]
    rw [if_pos har]
    unfold lget
    rw [hw]
    simp only [Except.bind]
    unfold pyFloatStr
    rw [hq]
    simp only [Except.bind, pure, Except.pure]
  · intro fl t u line w q heff hne hp har htw hw hq
    unfold parse_step flag_after
    simp only [Bind.bind]
    rw [heff]
    simp only [Bool.false_eq_true, if_false]
    rw [if_pos (by simpa using hne), hp, har]
    simp only [Bool.false_eq_true, if_false]
    rw [if_pos htw]
    unfold lget
    rw [hw]
    simp only [Except.bind]
    unfold pyFloatStr
    rw [hq]
    simp only [Except.bind, pure, Except.pure]
  · intro lines r h hno
    unfold parse_times at h
    exact parse_lines_unix lines false [] (-1) r h hno

/-- Witness for the amended C3: a prepared line with the flag down records
"Preparation"; a wall-time marker line with the flag down records the wall
time; and a markerless sequence leaves the sentinel in place. -/
theorem C3_pattern_lines_witness :
    parse_step (false, [], (-1 : ℚ)) "dspsr: prepared in 1.5 seconds" =
      .ok (flag_after false "dspsr: prepared in 1.5 seconds",
        dictInsert [] "Preparation" (3 / 2), -1) ∧
    parse_step (false, [], (-1 : ℚ)) "TOTAL WALL TIME ELAPSED: 5.0 seconds" =
      .ok (flag_after false "TOTAL WALL TIME ELAPSED: 5.0 seconds", [], 5) ∧
    ((parse_times ["hello"]).toOption.getD ([], 0)).2 = -1 := by
  refine ⟨?_, ?_, ?_⟩
  · exact C3_pattern_lines_amended.1 false [] (-1) _ "1.5" (3 / 2)
      (by with_unfolding_all decide) (by with_unfolding_all decide)
      (by with_unfolding_all decide) (by with_unfolding_all decide)
      (by with_unfolding_all decide)
  · exact C3_pattern_lines_amended.2.2.1 false [] (-1) _ "5.0" 5
      (by with_unfolding_all decide) (by with_unfolding_all decide)
      (by with_unfolding_all decide) (by with_unfolding_all decide)
      (by with_unfolding_all decide) (by with_unfolding_all decide)
      (by with_unfolding_all decide)
  · exact C3_pattern_lines_amended.2.2.2 ["hello"] _ (by with_unfolding_all rfl)
      (by with_unfolding_all decide)

/-- C4 fails on the code for a not-yet-executed sweep: `save_results`
refuses to write anything (it only prints a message), so no persisted form
exists to restore. -/
theorem C4_counterexample :
    (dspsrTrials.save_results (dspsrTrials.init "T" [Val.i 1] [])).map
      dspsrTrials.from_file ≠ some (dspsrTrials.init "T" [Val.i 1] []) := by
  with_unfolding_all decide

/-- C4 amended: for every executed sweep, restoring the persisted form
reproduces every field (`from_file` copies each attribute and sets
`executed`, which already equals true); a not-executed sweep is simply
never persisted. -/
theorem C4_roundtrip_amended (s : dspsrTrials) (h : s.executed = true) :
    (dspsrTrials.save_results s).map dspsrTrials.from_file = some s := by
  cases s with
  | mk va vv fa ex at_ au aso ase adc gr cm =>
      simp only at h
      subst h
      unfold dspsrTrials.save_results dspsrTrials.from_file dspsrTrials.init
      simp

/-- Witness for the amended C4: a fully executed sweep with mixed
success/failure entries round-trips through persist and restore. -/
theorem C4_roundtrip_witness :
    (dspsrTrials.save_results
      (dspsrTrials.mk "T" [Val.i 1, Val.i 2] [] true [("Preparation", [1])]
        [2] [["ok line"], ["Error: boom"]] ["", ""] ["dspsr a ", "dspsr b "]
        [true, false] "mixed")).map dspsrTrials.from_file =
    some (dspsrTrials.mk "T" [Val.i 1, Val.i 2] [] true [("Preparation", [1])]
        [2] [["ok line"], ["Error: boom"]] ["", ""] ["dspsr a ", "dspsr b "]
        [true, false] "mixed") :=
  C4_roundtrip_amended _ rfl

/-- When `execute` returns successfully, the result is marked executed
(both on the already-executed path and after a fresh sweep). -/
theorem executed_of_execute (s : dspsrTrials) (streams : Nat → String × String)
    (s' : dspsrTrials) (h : dspsrTrials.execute s streams = .ok s') :
    s'.executed = true := by
  unfold dspsrTrials.execute at h
  split at h
  · rename_i hex
    simp only [Except.ok.injEq] at h
    rw [← h]
    exact hex
  · simp only [Bind.bind] at h
    obtain ⟨r, _, hr⟩ := except_bind_ok _ _ _ h
    simp only [Except.ok.injEq] at hr
    rw [← hr]

/-- C5: once a sweep has completed `execute`, calling `execute` again
returns the state unchanged and raises no error (the guard only reports a
message). -/
theorem C5_execute_idempotent (s : dspsrTrials)
    (streams streams2 : Nat → String × String) (s' : dspsrTrials)
    (h : dspsrTrials.execute s streams = .ok s') :
    dspsrTrials.execute s' streams2 = .ok s' := by
  have hex := executed_of_execute s streams s' h
  unfold dspsrTrials.execute
  rw [hex]
  rfl

/-- Witness for C5: executing a one-value sweep and then executing the
result again returns it unchanged. -/
theorem C5_execute_idempotent_witness :
    dspsrTrials.execute
      ((dspsrTrials.execute (dspsrTrials.init "T" [Val.i 1] [])
          (fun _ => ("", ""))).toOption.getD (dspsrTrials.init "" [] []))
      (fun _ => ("other", "streams")) =
    .ok ((dspsrTrials.execute (dspsrTrials.init "T" [Val.i 1] [])
          (fun _ => ("", ""))).toOption.getD (dspsrTrials.init "" [] [])) :=
  C5_execute_idempotent (dspsrTrials.init "T" [Val.i 1] [])
    (fun _ => ("", "")) (fun _ => ("other", "streams")) _
    (by with_unfolding_all rfl)

/-- One sweep iteration never touches the sweep's identity fields: the
varied-argument name, the value sequence, the fixed-argument mapping, the
executed flag and the comment. -/
theorem exec_one_frame (streams : Nat → String × String) (acc : dspsrTrials)
    (iv : Nat × Val) (b : dspsrTrials) (h : exec_one streams acc iv = .ok b) :
    b.varied_arg = acc.varied_arg ∧
    b.varied_arg_values = acc.varied_arg_values ∧
    b.fixed_args = acc.fixed_args ∧
    b.executed = acc.executed ∧
    b.comment = acc.comment := by
  unfold exec_one at h
  simp only [Bind.bind] at h
  obtain ⟨d, _, h⟩ := except_bind_ok _ _ _ h
  obtain ⟨r, _, h⟩ := except_bind_ok _ _ _ h
  split at h
  · obtain ⟨at1, _, h2⟩ := except_bind_ok _ _ _ h
    simp only [Except.bind, pure, Except.pure, Except.ok.injEq] at h2
    rw [← h2]
    exact ⟨rfl, rfl, rfl, rfl, rfl⟩
  · simp only [Except.bind, pure, Except.pure, Except.ok.injEq] at h
    rw [← h]
    exact ⟨rfl, rfl, rfl, rfl, rfl⟩

/-- The sweep loop preserves the identity fields. -/
theorem exec_runs_frame (streams : Nat → String × String)
    (items : List (Nat × Val)) : ∀ (acc r : dspsrTrials),
    exec_runs streams acc items = .ok r →
    r.varied_arg = acc.varied_arg ∧
    r.varied_arg_values = acc.varied_arg_values ∧
    r.fixed_args = acc.fixed_args ∧
    r.executed = acc.executed ∧
    r.comment = acc.comment := by
  induction items with
  | nil =>
      intro acc r h
      unfold exec_runs at h
      simp only [Except.ok.injEq] at h
      rw [← h]
      exact ⟨rfl, rfl, rfl, rfl, rfl⟩
  | cons iv rest ih =>
      intro acc r h
      unfold exec_runs at h
      simp only [Bind.bind] at h
      obtain ⟨acc', hone, hrest⟩ := except_bind_ok _ _ _ h
      obtain ⟨h1, h2, h3, h4, h5⟩ := exec_one_frame streams acc iv acc' hone
      obtain ⟨g1, g2, g3, g4, g5⟩ := ih acc' r hrest
      exact ⟨g1.trans h1, g2.trans h2, g3.trans h3, g4.trans h4, g5.trans h5⟩

/-- C10: `execute` leaves the stored fixed-parameters mapping and the
varied-value sequence (and the varied-argument name) unchanged; each run
merges the varied value into a fresh copy of the fixed parameters. -/
theorem C10_frame (s : dspsrTrials) (streams : Nat → String × String)
    (s' : dspsrTrials) (h : dspsrTrials.execute s streams = .ok s') :
    s'.fixed_args = s.fixed_args ∧
    s'.varied_arg_values = s.varied_arg_values ∧
    s'.varied_arg = s.varied_arg := by
  unfold dspsrTrials.execute at h
  split at h
  · simp only [Except.ok.injEq] at h
    rw [← h]
    exact ⟨rfl, rfl, rfl⟩
  · simp only [Bind.bind] at h
    obtain ⟨r, hruns, hr⟩ := except_bind_ok _ _ _ h
    obtain ⟨h1, h2, h3, _, _⟩ := exec_runs_frame streams s.varied_arg_values.enum s r hruns
    simp only [Except.ok.injEq] at hr
    rw [← hr]
    exact ⟨h3, h2, h1⟩

/-- Witness for C10: executing a concrete one-value sweep leaves the fixed
arguments, value sequence and varied-argument name as initialised. -/
theorem C10_frame_witness :
    ((dspsrTrials.init "T" [Val.i 1] [("bw", Val.q 200)]).execute
        (fun _ => ("", ""))).map
      (fun s' => (s'.fixed_args, s'.varied_arg_values)) =
    .ok ([("bw", Val.q 200)], [Val.i 1]) := by
  obtain ⟨s', hexec⟩ :
      ∃ s', (dspsrTrials.init "T" [Val.i 1] [("bw", Val.q 200)]).execute
        (fun _ => ("", "")) = .ok s' :=
    ⟨_, by with_unfolding_all rfl⟩
  have h := C10_frame _ _ _ hexec
  rw [hexec]
  simp only [Except.map]
  rw [h.1, h.2.1]
  rfl

/-- A successful parse step keeps the stage dictionary's keys unrepeated. -/
theorem parse_step_nodup (fl : Bool) (t : List (String × ℚ)) (u : ℚ)
    (l : String) (st' : Bool × List (String × ℚ) × ℚ)
    (h : parse_step (fl, t, u) l = .ok st') (hn : (t.map Prod.fst).Nodup) :
    (st'.2.1.map Prod.fst).Nodup := by
  unfold parse_step at h
  simp only [Bind.bind] at h
  repeat' split at h
  all_goals
    first
    | (obtain ⟨w, hw, h2⟩ := except_bind_ok _ _ _ h
       obtain ⟨v, hv, h3⟩ := except_bind_ok _ _ _ h2
       simp only [Except.bind, pure, Except.pure, Except.ok.injEq] at h3
       rw [← h3]
       first
       | exact nodup_keys_dictInsert t _ _ hn
       | exact hn)
    | (simp only [Except.bind, pure, Except.pure, Except.ok.injEq] at h
       rw [← h]
       exact hn)

theorem parse_lines_nodup (lines : List String) : ∀ (fl : Bool)
    (t : List (String × ℚ)) (u : ℚ) (r : List (String × ℚ) × ℚ),
    parse_lines (fl, t, u) lines = .ok r → (t.map Prod.fst).Nodup →
    (r.1.map Prod.fst).Nodup := by
  induction lines with
  | nil =>
      intro fl t u r h hn
      unfold parse_lines at h
      simp only [Except.ok.injEq] at h
      rw [← h]
      exact hn
  | cons l rest ih =>
      intro fl t u r h hn
      unfold parse_lines at h
      simp only [Bind.bind] at h
      obtain ⟨st', hstep, hrest⟩ := except_bind_ok _ _ _ h
      have hn' := parse_step_nodup fl t u l st' hstep hn
      cases st' with
      | mk a bc =>
          cases bc with
          | mk b c => exact ih a b c r hrest hn'

/-- The stage dictionary returned by `test_dspsr` has unrepeated keys. -/
theorem test_dspsr_times_nodup (kw : List (String × Val)) (o e : String)
    (r : RunResult) (h : test_dspsr kw o e = .ok r) :
    (r.times.map Prod.fst).Nodup := by
  unfold test_dspsr at h
  simp only [Bind.bind] at h
  obtain ⟨cmd, _, h⟩ := except_bind_ok _ _ _ h
  obtain ⟨tu, htu, h2⟩ := except_bind_ok _ _ _ h
  simp only [pure, Except.pure, Except.ok.injEq] at h2
  have := parse_lines_nodup ((e.splitOn "\n").map strip_progress) false [] (-1)
    tu htu (by simp)
  rw [← h2]
  exact this

theorem count_true_set (l : List Bool) : ∀ (i : Nat), l.get? i = some false →
    (l.set i true).count true = l.count true + 1 := by
  induction l with
  | nil => intro i h; simp at h
  | cons b t ih =>
      intro i h
      cases i with
      | zero =>
          simp only [List.get?] at h
          cases h
          simp [List.count_cons]
      | succ j =>
          simp only [List.get?] at h
          have := ih j h
          simp only [List.set, List.count_cons]
          omega

theorem fold_append_len (ts : List (String × ℚ)) :
    ∀ (a b : List (String × List ℚ)), fold_append a ts = .ok b →
    b.length = a.length := by
  induction ts with
  | nil =>
      intro a b h
      unfold fold_append at h
      simp only [Except.ok.injEq] at h
      rw [← h]
  | cons kv rest ih =>
      intro a b h
      unfold fold_append at h
      simp only [Bind.bind] at h
      obtain ⟨a', ha', hrest⟩ := except_bind_ok _ _ _ h
      have h1 : a'.length = a.length := by
        unfold append_at at ha'
        split at ha'
        · simp only [Except.ok.injEq] at ha'
          rw [← ha']
          exact List.length_map _ _
        · simp at ha'
      rw [ih a' b hrest, h1]

theorem fold_append_nth (ts : List (String × ℚ)) :
    ∀ (a b : List (String × List ℚ)), fold_append a ts = .ok b →
    ∀ (i : Nat) (p q : String × List ℚ), a.get? i = some p → b.get? i = some q →
    q.1 = p.1 ∧ q.2.length ≤ p.2.length + (ts.map Prod.fst).count p.1 := by
  induction ts with
  | nil =>
      intro a b h i p q hp hq
      unfold fold_append at h
      simp only [Except.ok.injEq] at h
      rw [← h] at hq
      rw [hp] at hq
      cases hq
      simp
  | cons kv rest ih =>
      intro a b h i p q hp hq
      unfold fold_append at h
      simp only [Bind.bind] at h
      obtain ⟨a', ha', hrest⟩ := except_bind_ok _ _ _ h
      have hshape : a' = a.map (fun r =>
          if r.1 = kv.1 then (r.1, r.2 ++ [kv.2]) else r) := by
        unfold append_at at ha'
        split at ha'
        · simp only [Except.ok.injEq] at ha'
          rw [← ha']
        · simp at ha'
      have hp' : a'.get? i = some (if p.1 = kv.1 then (p.1, p.2 ++ [kv.2]) else p) := by
        rw [hshape, List.get?_map, hp]
        rfl
      have hmain := ih a' b hrest i _ q hp' hq
      by_cases hk : p.1 = kv.1
      · rw [if_pos hk] at hmain
        simp only [List.map_cons, List.count_cons] at *
        constructor
        · exact hmain.1
        · have h2 := hmain.2
          simp only [List.length_append, List.length_singleton] at h2
          have : (kv.1 == p.1) = true := beq_iff_eq.mpr hk.symm
          rw [this]
          simpa using (by omega : q.2.length ≤ p.2.length +
            (List.count p.1 (rest.map Prod.fst) + 1))
      · rw [if_neg hk] at hmain
        simp only [List.map_cons, List.count_cons]
        constructor
        · exact hmain.1
        · have : (kv.1 == p.1) = false := beq_eq_false_iff_ne.mpr (fun he => hk he.symm)
          rw [this]
          simpa using hmain.2

/-- What one sweep iteration does to the accumulators: the three logs each
gain one entry; on a failed run the timing sequences and success flags are
untouched, and on a successful run exactly one wall time is appended, the
run's flag is set, and the stage lists grow via `fold_append` over a
stage dictionary with unrepeated keys. -/
theorem exec_one_spec (streams : Nat → String × String) (acc : dspsrTrials)
    (iv : Nat × Val) (b : dspsrTrials) (h : exec_one streams acc iv = .ok b) :
    b.all_stdout.length = acc.all_stdout.length + 1 ∧
    b.all_stderr.length = acc.all_stderr.length + 1 ∧
    b.all_dspsr_calls.length = acc.all_dspsr_calls.length + 1 ∧
    ((b.all_utime = acc.all_utime ∧ b.good_runs = acc.good_runs ∧
        b.all_times = acc.all_times) ∨
      (∃ ut at1 ts, b.all_utime = acc.all_utime ++ [ut] ∧
        b.good_runs = acc.good_runs.set iv.1 true ∧
        ((ts : List (String × ℚ)).map Prod.fst).Nodup ∧
        fold_append (if acc.all_times.length = 0 then
          ts.map (fun p => (p.1, ([] : List ℚ))) else acc.all_times) ts = .ok at1 ∧
        b.all_times = at1)) := by
  unfold exec_one at h
  simp only [Bind.bind] at h
  obtain ⟨d, _, h⟩ := except_bind_ok _ _ _ h
  obtain ⟨r, hr, h⟩ := except_bind_ok _ _ _ h
  split at h
  · obtain ⟨at1, hat1, h2⟩ := except_bind_ok _ _ _ h
    simp only [Except.bind, pure, Except.pure, Except.ok.injEq] at h2
    rw [← h2]
    refine ⟨by simp, by simp, by simp, Or.inr ⟨r.unix_time, at1, r.times, by simp,
      by simp, ?_, hat1, by simp⟩⟩
    exact test_dspsr_times_nodup _ _ _ r hr
  · simp only [Except.bind, pure, Except.pure, Except.ok.injEq] at h
    rw [← h]
    exact ⟨by simp, by simp, by simp, Or.inl ⟨by simp, by simp, by simp⟩⟩

/-- One successful run grows every stage list by at most one entry. -/
theorem stage_bound_step (acc_times : List (String × List ℚ)) (U : Nat)
    (ts : List (String × ℚ)) (at1 : List (String × List ℚ))
    (hNodup : (ts.map Prod.fst).Nodup)
    (hfold : fold_append (if acc_times.length = 0 then
      ts.map (fun p => (p.1, ([] : List ℚ))) else acc_times) ts = .ok at1)
    (hbound : ∀ p ∈ acc_times, p.2.length ≤ U) :
    ∀ q ∈ at1, q.2.length ≤ U + 1 := by
  intro q hq
  have hbase : ∀ p ∈ (if acc_times.length = 0 then
      ts.map (fun p => (p.1, ([] : List ℚ))) else acc_times), p.2.length ≤ U := by
    split
    · intro p hp
      rw [List.mem_map] at hp
      obtain ⟨x, _, rfl⟩ := hp
      simp
    · exact hbound
  obtain ⟨i, hqi⟩ := List.mem_iff_get?.mp hq
  have hlen := fold_append_len ts _ at1 hfold
  have hilt : i < at1.length := (List.get?_eq_some.mp hqi).1
  have hia : i < (if acc_times.length = 0 then
      ts.map (fun p => (p.1, ([] : List ℚ))) else acc_times).length := by
    omega
  have hp0 : (if acc_times.length = 0 then
      ts.map (fun p => (p.1, ([] : List ℚ))) else acc_times).get? i ≠ none := by
    simp only [ne_eq, List.get?_eq_none]
    omega
  cases hp0eq : (if acc_times.length = 0 then
      ts.map (fun p => (p.1, ([] : List ℚ))) else acc_times).get? i with
  | none => exact absurd hp0eq hp0
  | some p0 =>
      obtain ⟨_, hle⟩ := fold_append_nth ts _ at1 hfold i p0 q hp0eq hqi
      have hcnt : (ts.map Prod.fst).count p0.1 ≤ 1 :=
        List.nodup_iff_count_le_one.mp hNodup p0.1
      have hb := hbase p0 (List.mem_iff_get?.mpr ⟨i, hp0eq⟩)
      omega

/-- Accumulator bookkeeping across the sweep loop: logs gain one entry per
run, the wall-time sequence has exactly one entry per successful run
(nothing is appended on failure), and every stage sequence is bounded by
the wall-time sequence's length. -/
theorem exec_runs_spec (streams : Nat → String × String) :
    ∀ (items : List (Nat × Val)) (acc r : dspsrTrials),
    exec_runs streams acc items = .ok r →
    (∀ pr ∈ items, acc.good_runs.get? pr.1 = some false) →
    ((items.map Prod.fst).Nodup) →
    (∀ p ∈ acc.all_times, p.2.length ≤ acc.all_utime.length) →
    acc.all_utime.length = acc.good_runs.count true →
    (r.all_utime.length = r.good_runs.count true ∧
     (∀ p ∈ r.all_times, p.2.length ≤ r.all_utime.length) ∧
     r.all_stdout.length = acc.all_stdout.length + items.length ∧
     r.all_stderr.length = acc.all_stderr.length + items.length ∧
     r.all_dspsr_calls.length = acc.all_dspsr_calls.length + items.length ∧
     r.good_runs.length = acc.good_runs.length) := by
  intro items
  induction items with
  | nil =>
      intro acc r h _ _ hbound hcount
      unfold exec_runs at h
      simp only [Except.ok.injEq] at h
      rw [← h]
      exact ⟨hcount, hbound, by simp, by simp, by simp, rfl⟩
  | cons iv rest ih =>
      intro acc r h hfresh hnd hbound hcount
      unfold exec_runs at h
      simp only [Bind.bind] at h
      obtain ⟨b, hone, hrest⟩ := except_bind_ok _ _ _ h
      obtain ⟨hso, hse, hsc, hcase⟩ := exec_one_spec streams acc iv b hone
      simp only [List.map_cons, List.nodup_cons] at hnd
      cases hcase with
      | inl hfail =>
          obtain ⟨hu, hg, ht⟩ := hfail
          have hres := ih b r hrest
            (fun pr hpr => by rw [hg]; exact hfresh pr (List.mem_cons_of_mem iv hpr))
            hnd.2
            (by rw [ht, hu]; exact hbound)
            (by rw [hu, hg]; exact hcount)
          refine ⟨hres.1, hres.2.1, ?_, ?_, ?_, ?_⟩
          · rw [hres.2.2.1, hso]; simp; omega
          · rw [hres.2.2.2.1, hse]; simp; omega
          · rw [hres.2.2.2.2.1, hsc]; simp; omega
          · rw [hres.2.2.2.2.2, hg]
      | inr hsucc =>
          obtain ⟨ut, at1, ts, hu, hg, hndts, hfold, ht⟩ := hsucc
          have hat : acc.good_runs.get? iv.1 = some false :=
            hfresh iv (List.mem_cons_self iv rest)
          have hres := ih b r hrest
            (fun pr hpr => by
              rw [hg]
              have hne : iv.1 ≠ pr.1 := by
                intro he
                exact hnd.1 (by rw [he]; exact List.mem_map_of_mem Prod.fst hpr)
              rw [List.get?_set_ne true acc.good_runs hne]
              exact hfresh pr (List.mem_cons_of_mem iv hpr))
            hnd.2
            (by
              rw [ht, hu]
              intro p hp
              have := stage_bound_step acc.all_times acc.all_utime.length ts at1
                hndts hfold hbound p hp
              simp only [List.length_append, List.length_singleton]
              omega)
            (by
              rw [hu, hg, count_true_set acc.good_runs iv.1 hat]
              simp only [List.length_append, List.length_singleton]
              omega)
          refine ⟨hres.1, hres.2.1, ?_, ?_, ?_, ?_⟩
          · rw [hres.2.2.1, hso]; simp; omega
          · rw [hres.2.2.2.1, hse]; simp; omega
          · rw [hres.2.2.2.2.1, hsc]; simp; omega
          · rw [hres.2.2.2.2.2, hg, List.length_set]

/-- C2 fails on the code: on a failed run nothing at all is appended to the
stage or wall-time sequences (no sentinel), so after a two-value sweep with
one failure the wall-time sequence has length 1 while the value sequence
has length 2. -/
theorem C2_counterexample :
    ¬ (∀ (s : dspsrTrials) (streams : Nat → String × String) (s' : dspsrTrials),
        dspsrTrials.execute s streams = .ok s' →
        ((∀ p ∈ s'.all_times, p.2.length = s'.varied_arg_values.length) ∧
          s'.all_utime.length = s'.varied_arg_values.length)) := by
  intro hcl
  obtain ⟨s', hexec⟩ :
      ∃ s', dspsrTrials.execute (dspsrTrials.init "T" [Val.i 1, Val.i 2] [])
        (fun ii => if ii = 0 then
          ("", "dspsr: prepared in 1.0 seconds\nTOTAL WALL TIME ELAPSED: 2.0 seconds")
          else ("", "Error: boom")) = .ok s' :=
    ⟨_, by with_unfolding_all rfl⟩
  have h := (hcl _ _ _ hexec).2
  have hmap : (dspsrTrials.execute (dspsrTrials.init "T" [Val.i 1, Val.i 2] [])
        (fun ii => if ii = 0 then
          ("", "dspsr: prepared in 1.0 seconds\nTOTAL WALL TIME ELAPSED: 2.0 seconds")
          else ("", "Error: boom"))).map
      (fun s => (s.all_utime.length, s.varied_arg_values.length)) = .ok (1, 2) := by
    with_unfolding_all decide
  rw [hexec] at hmap
  simp only [Except.map, Except.ok.injEq, Prod.mk.injEq] at hmap
  omega

/-- C2 amended: after `execute` completes on a freshly initialised sweep,
the stdout/stderr/command logs each have length equal to the value
sequence's length; the wall-time sequence has exactly one entry per
successful run (nothing, not even a sentinel, is appended on a failed run);
and every stage sequence is at most as long as the wall-time sequence (a
stage missing from a later successful run is silently shorter). -/
theorem C2_alignment_amended (va : String) (vals : List Val)
    (fa : List (String × Val)) (streams : Nat → String × String)
    (s' : dspsrTrials)
    (h : dspsrTrials.execute (dspsrTrials.init va vals fa) streams = .ok s') :
    s'.all_stdout.length = vals.length ∧
    s'.all_stderr.length = vals.length ∧
    s'.all_dspsr_calls.length = vals.length ∧
    s'.all_utime.length = s'.good_runs.count true ∧
    (∀ p ∈ s'.all_times, p.2.length ≤ s'.all_utime.length) := by
  unfold dspsrTrials.execute at h
  split at h
  · rename_i hex
    simp [dspsrTrials.init] at hex
  · simp only [Bind.bind] at h
    obtain ⟨r, hruns, hr⟩ := except_bind_ok _ _ _ h
    have hspec := exec_runs_spec streams (vals.enum) (dspsrTrials.init va vals fa)
      r hruns
      (by
        intro pr hpr
        have hlt : pr.1 < vals.length := by
          have hmem : pr.1 ∈ (vals.enum).map Prod.fst :=
            List.mem_map_of_mem Prod.fst hpr
          rw [List.enum_map_fst] at hmem
          exact List.mem_range.mp hmem
        show (vals.map (fun _ => false)).get? pr.1 = some false
        cases hv : vals.get? pr.1 with
        | none =>
            rw [List.get?_eq_none] at hv
            omega
        | some x =>
            rw [List.get?_map, hv]
            rfl)
      (by rw [List.enum_map_fst]; exact List.nodup_range vals.length)
      (by intro p hp; simp [dspsrTrials.init] at hp)
      (by
        show ([] : List ℚ).length = (vals.map (fun _ => false)).count true
        rw [List.count_eq_zero.mpr (by simp [List.mem_map])]
        rfl)
    simp only [Except.ok.injEq] at hr
    rw [← hr]
    have hlen : (vals.enum).length = vals.length := List.enum_length
    refine ⟨?_, ?_, ?_, hspec.1, hspec.2.1⟩
    · have := hspec.2.2.1
      simp only [dspsrTrials.init] at this
      simpa [hlen] using this
    · have := hspec.2.2.2.1
      simp only [dspsrTrials.init] at this
      simpa [hlen] using this
    · have := hspec.2.2.2.2.1
      simp only [dspsrTrials.init] at this
      simpa [hlen] using this

/-- Witness for the amended C2 on a two-value sweep with one failure: logs
keep length 2, and the wall-time sequence's length equals the number of
successful runs. -/
theorem C2_alignment_witness :
    ((dspsrTrials.init "T" [Val.i 1, Val.i 2] []).execute
        (fun ii => if ii = 0 then
          ("", "dspsr: prepared in 1.0 seconds\nTOTAL WALL TIME ELAPSED: 2.0 seconds")
          else ("", "Error: boom"))).map
      (fun s' => (s'.all_stdout.length,
        decide (s'.all_utime.length = s'.good_runs.count true))) =
    .ok (2, true) := by
  obtain ⟨s', hexec⟩ :
      ∃ s', (dspsrTrials.init "T" [Val.i 1, Val.i 2] []).execute
        (fun ii => if ii = 0 then
          ("", "dspsr: prepared in 1.0 seconds\nTOTAL WALL TIME ELAPSED: 2.0 seconds")
          else ("", "Error: boom")) = .ok s' :=
    ⟨_, by with_unfolding_all rfl⟩
  have h := C2_alignment_amended "T" [Val.i 1, Val.i 2] []
    (fun ii => if ii = 0 then
      ("", "dspsr: prepared in 1.0 seconds\nTOTAL WALL TIME ELAPSED: 2.0 seconds")
      else ("", "Error: boom")) s' hexec
  rw [hexec]
  simp only [Except.map, Except.ok.injEq, Prod.mk.injEq]
  refine ⟨h.1, ?_⟩
  rw [h.2.2.2.1]
  simp
